import Mathlib

/-!
Verification of the GECO protocol implementation of the Hewalex PCWU
Home Assistant add-on.

The definitions below are a shallow embedding of `rootfs/app/geco_protocol.py`,
`rootfs/app/pcwu_registers.py` and the write / reconnect-backoff logic of
`rootfs/app/main.py`.  Byte strings are `List Nat` (each element one byte
value), 16-bit machine words are `Nat` with explicit `% 65536` (resp. `% 256`)
masking wherever the Python code masks, and Python code that may raise is
embedded with an explicit exceptional result.
-/

/-- CRC-8/DVB-S2 inner loop: the 8 shift rounds applied per input byte
(`crc8_dvb_s2`, body of `for _ in range(8)`); `& 0xFF` is `% 256`. -/
def crc8_rounds : Nat → Nat → Nat
  | 0, crc => crc
  | n + 1, crc =>
      crc8_rounds n
        (if crc &&& 0x80 ≠ 0 then ((crc <<< 1) ^^^ 0xD5) % 256 else (crc <<< 1) % 256)

/-- CRC-8/DVB-S2 used for the packet header (`crc8_dvb_s2`); the second
argument is the running seed (Python default 0). -/
def crc8_dvb_s2 : List Nat → Nat → Nat
  | [], crc => crc
  | b :: rest, crc => crc8_dvb_s2 rest (crc8_rounds 8 (crc ^^^ b))

/-- Payload CRC-16 byte loop (`crc16`): state is the pair (msb, lsb). -/
def crc16_aux : List Nat → Nat → Nat → Nat × Nat
  | [], msb, lsb => (msb, lsb)
  | x :: rest, msb, lsb =>
      let x1 := x ^^^ msb
      let x2 := x1 ^^^ (x1 >>> 4)
      crc16_aux rest ((lsb ^^^ (x2 >>> 3) ^^^ (x2 <<< 4)) % 256) ((x2 ^^^ (x2 <<< 5)) % 256)

/-- CRC-16 used for the payload (`crc16`); result is `(msb << 8) + lsb`. -/
def crc16 (data : List Nat) (crc : Nat) : Nat :=
  let p := crc16_aux data ((crc >>> 8) % 256) (crc % 256)
  p.1 * 256 + p.2

/-- Build the 8-byte packet header (`build_header`); `payload_len & 0xFF` is
`payload_len % 256`. -/
def build_header (dst_hard src_hard payload_len : Nat) : List Nat :=
  let header_data := [0x69, dst_hard, src_hard, 0x84, 0x00, 0x00, payload_len % 256]
  header_data ++ [crc8_dvb_s2 header_data 0]

/-- Build a payload with addressing, function code, data, and CRC-16
(`build_payload`); `struct.pack` of the 16-bit CRC in big-endian order is the
byte pair `[crc / 256, crc % 256]`. -/
def build_payload (dst_soft src_soft fnc : Nat) (data : List Nat) : List Nat :=
  let payload_no_crc := [dst_soft, 0x00, src_soft, 0x00, fnc] ++ data
  let crc := crc16 payload_no_crc 0
  payload_no_crc ++ [crc / 256, crc % 256]

/-- Build a register read request packet (`build_read_request`); the register
start is encoded 16-bit little-endian, `(reg_start >> 8) & 0xFF` embedded as
`reg_start / 256 % 256`. -/
def build_read_request (dst_hard src_hard dst_soft src_soft fnc reg_start reg_count : Nat) :
    List Nat :=
  let func_data := [0x80, 0x00, reg_count % 256, reg_start % 256, reg_start / 256 % 256]
  let payload := build_payload dst_soft src_soft fnc func_data
  build_header dst_hard src_hard payload.length ++ payload

/-- Build a config register write-back request (`build_write_request`):
sub-function `0xA0`, function code `0x60`, carrying the whole register block. -/
def build_write_request (dst_hard src_hard dst_soft src_soft reg_start reg_count : Nat)
    (reg_data : List Nat) : List Nat :=
  let func_data :=
    [0xA0, 0x00, reg_count % 256, reg_start % 256, reg_start / 256 % 256] ++ reg_data
  let payload := build_payload dst_soft src_soft 0x60 func_data
  build_header dst_hard src_hard payload.length ++ payload

/-- Result of `parse_packet`: the dict the Python code returns, with the keys
that are only conditionally present (`sub_fnc`, `reg_start`, `reg_count`,
`reg_data`) embedded as `Option` fields. -/
structure Packet where
  dst_hard : Nat
  src_hard : Nat
  dst_soft : Nat
  src_soft : Nat
  fnc : Nat
  raw_payload : List Nat
  total_len : Nat
  sub_fnc : Option Nat
  reg_start : Option Nat
  reg_count : Option Nat
  reg_data : Option (List Nat)
deriving DecidableEq, Repr

/-- Parse a GECO protocol packet (`parse_packet`): returns `none` exactly where
the Python code returns `None`.  Indexing `data[i]` is `List.getD` (every
access is guarded by the preceding length checks), slices are `take` / `drop`,
and `struct.unpack` of the trailing big-endian CRC pair is
`payload[-2] * 256 + payload[-1]`. -/
def parse_packet (data : List Nat) : Option Packet :=
  if data.length < 8 + 7 then none
  else if data.getD 0 0 ≠ 0x69 then none
  else
    let dst_hard := data.getD 1 0
    let src_hard := data.getD 2 0
    let payload_len := data.getD 6 0
    let hdr_crc_expected := data.getD 7 0
    if crc8_dvb_s2 (data.take 7) 0 ≠ hdr_crc_expected then none
    else if data.length < 8 + payload_len then none
    else
      let payload := (data.drop 8).take payload_len
      if payload.length < 7 then none
      else
        let payload_data := payload.take (payload.length - 2)
        let payload_crc_expected :=
          payload.getD (payload.length - 2) 0 * 256 + payload.getD (payload.length - 1) 0
        if crc16 payload_data 0 ≠ payload_crc_expected then none
        else
          let base : Packet :=
            { dst_hard := dst_hard
              src_hard := src_hard
              dst_soft := payload_data.getD 0 0
              src_soft := payload_data.getD 2 0
              fnc := payload_data.getD 4 0
              raw_payload := payload_data
              total_len := 8 + payload_len
              sub_fnc := none
              reg_start := none
              reg_count := none
              reg_data := none }
          if 10 ≤ payload_data.length then
            let with_regs : Packet :=
              { base with
                sub_fnc := some (payload_data.getD 5 0)
                reg_start := some (payload_data.getD 8 0 + 256 * payload_data.getD 9 0)
                reg_count := some (payload_data.getD 7 0) }
            if base.fnc = 0x50 ∨ base.fnc = 0x70 then
              some { with_regs with reg_data := some (payload_data.drop 10) }
            else
              some with_regs
          else
            some base

/-- First index of the start marker `0x69` in a byte list (`buffer.find` is
`pos + find_marker_idx (buffer.drop pos)` when the marker occurs at or after
`pos`, and `-1`, embedded as `none`, otherwise). -/
def find_marker_idx : List Nat → Option Nat
  | [] => none
  | b :: rest => if b = 0x69 then some 0 else (find_marker_idx rest).map (· + 1)

/-- Scan loop of `find_packets`, with the scan position `pos` explicit.
Each iteration mirrors one pass of the Python `while` body: locate the next
start marker, stop if fewer than 8 bytes remain there, read the declared
payload length, stop if the full packet does not fit, otherwise slice it and
parse; on success emit and jump past the packet, on failure advance by one. -/
def find_packets_aux (buffer : List Nat) (pos : Nat) : List (Packet × Nat) :=
  if h : pos < buffer.length then
    match find_marker_idx (buffer.drop pos) with
    | none => []
    | some k =>
      let idx := pos + k
      let remaining := buffer.drop idx
      if remaining.length < 8 then []
      else
        let total_len := 8 + remaining.getD 6 0
        if remaining.length < total_len then []
        else
          match parse_packet (remaining.take total_len) with
          | some parsed => (parsed, idx + total_len) :: find_packets_aux buffer (idx + total_len)
          | none => find_packets_aux buffer (idx + 1)
  else []
termination_by buffer.length - pos
decreasing_by
  all_goals simp_wf
  all_goals omega

/-- Find all valid GECO packets in a byte buffer (`find_packets`). -/
def find_packets (buffer : List Nat) : List (Packet × Nat) :=
  find_packets_aux buffer 0

/-- Outcome of one iteration of the `find_packets` scan loop. -/
inductive StepOut where
  | emit (p : Packet) (next : Nat)
  | skip (next : Nat)
  | stop
deriving DecidableEq, Repr

/-- One iteration of the `find_packets` scan loop in isolation: `emit` when a
packet is parsed (next scan position past its bytes), `skip` when a start
marker fails to parse (next scan position one byte further), `stop` when the
marker is absent or more data is needed. -/
def loop_step (buffer : List Nat) (pos : Nat) : StepOut :=
  match find_marker_idx (buffer.drop pos) with
  | none => .stop
  | some k =>
    let idx := pos + k
    let remaining := buffer.drop idx
    if remaining.length < 8 then .stop
    else
      let total_len := 8 + remaining.getD 6 0
      if remaining.length < total_len then .stop
      else
        match parse_packet (remaining.take total_len) with
        | some parsed => .emit parsed (idx + total_len)
        | none => .skip (idx + 1)

/-- Extract 16-bit big-endian register values from raw register data
(`extract_registers`): one value per byte pair, `min (count, len // 2)`
values in total. -/
def extract_registers : List Nat → Nat → List Nat
  | b0 :: b1 :: rest, n + 1 => (b0 * 256 + b1) :: extract_registers rest n
  | _, _ => []

/-- Convert a list of 16-bit register values back to raw big-endian bytes
(`registers_to_bytes`); `struct.pack` of `val & 0xFFFF` is the byte pair
`[val % 65536 / 256, val % 65536 % 256]`. -/
def registers_to_bytes : List Nat → List Nat
  | [] => []
  | val :: rest => val % 65536 / 256 :: val % 65536 % 256 :: registers_to_bytes rest

/-- Register data types of the config map (`pcwu_registers.py` type strings
`word`, `te10`, `bool`). -/
inductive DType where
  | word
  | te10
  | bool
deriving DecidableEq, Repr

/-- One row of `CONFIG_REGISTERS`:
`(offset, name, type, description, writable, min_val, max_val)`. -/
structure ConfigReg where
  offset : Nat
  name : String
  dtype : DType
  desc : String
  writable : Bool
  min_val : Int
  max_val : Int
deriving DecidableEq, Repr

/-- The config register map (`CONFIG_REGISTERS`, base=300). -/
def CONFIG_REGISTERS : List ConfigReg := [
  ⟨0,  "InstallationScheme", .word, "Installation scheme (1-9)", false, 1, 9⟩,
  ⟨1,  "HeatPumpEnabled", .bool, "Heat pump enabled", true, 0, 1⟩,
  ⟨2,  "HeaterEEnabled", .bool, "Electric heater enabled", true, 0, 1⟩,
  ⟨3,  "HeaterEPowerLimit", .word, "Electric heater power limit", true, 0, 3⟩,
  ⟨4,  "TapWaterSensor", .word, "Controlling sensor (0=T2,1=T3,2=T7)", true, 0, 2⟩,
  ⟨5,  "TapWaterTemp", .te10, "Target temperature (°C)", true, 100, 600⟩,
  ⟨6,  "TapWaterHysteresis", .te10, "Start-up hysteresis (°C)", true, 20, 100⟩,
  ⟨7,  "AmbientMinTemp", .te10, "Min ambient temp (°C)", true, -100, 100⟩,
  ⟨8,  "TimeProgramHPM_F_hi", .word, "Time program HP Mon-Fri (hi)", true, 0, 65535⟩,
  ⟨9,  "TimeProgramHPM_F_lo", .word, "Time program HP Mon-Fri (lo)", true, 0, 65535⟩,
  ⟨10, "TimeProgramHPSat_hi", .word, "Time program HP Saturday (hi)", true, 0, 65535⟩,
  ⟨11, "TimeProgramHPSat_lo", .word, "Time program HP Saturday (lo)", true, 0, 65535⟩,
  ⟨12, "TimeProgramHPSun_hi", .word, "Time program HP Sunday (hi)", true, 0, 65535⟩,
  ⟨13, "TimeProgramHPSun_lo", .word, "Time program HP Sunday (lo)", true, 0, 65535⟩,
  ⟨14, "AntiFreezingEnabled", .bool, "Anti-freezing protection", true, 0, 1⟩,
  ⟨15, "WaterPumpOperationMode", .word, "Pump mode (0=Continuous,1=Synchronous)", true, 0, 1⟩,
  ⟨16, "FanOperationMode", .word, "Fan mode (0=Max,1=Min,2=Day/Night)", true, 0, 2⟩,
  ⟨17, "DefrostingInterval", .word, "Defrost delay (30-90 min)", true, 30, 90⟩,
  ⟨18, "DefrostingStartTemp", .te10, "Defrost start temp (°C)", true, -300, 0⟩,
  ⟨19, "DefrostingStopTemp", .te10, "Defrost stop temp (°C)", true, 20, 300⟩,
  ⟨20, "DefrostingMaxTime", .word, "Max defrost duration (1-12 min)", true, 1, 12⟩,
  ⟨21, "ExtControllerHPOFF", .bool, "External HP deactivation", true, 0, 1⟩,
  ⟨22, "CircPumpMinTemp", .te10, "Min circ pump temp (°C)", true, 200, 600⟩,
  ⟨23, "CircPumpMode", .word, "Circ pump mode (0=Intermittent,1=Continuous)", true, 0, 1⟩]

/-- A Python value as it reaches `encode_config_value` from the command path:
a string, an int, a float (embedded as an exact rational) or a bool. -/
inductive PyVal where
  | str (s : String)
  | int (n : Int)
  | float (q : Rat)
  | bool (b : Bool)
deriving DecidableEq, Repr

/-- Digit run to a number: `none` if a non-digit occurs (models the
`ValueError` of Python numeric string conversion). -/
def dec_digits_aux : List Char → Nat → Option Nat
  | [], acc => some acc
  | c :: rest, acc =>
      if c.isDigit then dec_digits_aux rest (acc * 10 + (c.toNat - 48)) else none

/-- Models CPython `float(str)` for plain decimal literals (optional sign,
digits, optional fraction): non-numeric strings yield `none`, embedding the
`ValueError` that `float(user_value)` raises inside `encode_config_value`. -/
def parse_decimal (s : String) : Option Rat :=
  let cs := s.toList
  let signed : Int × List Char :=
    match cs with
    | '-' :: rest => (-1, rest)
    | '+' :: rest => (1, rest)
    | _ => (1, cs)
  let int_part := signed.2.takeWhile (fun c => c ≠ '.')
  match signed.2.dropWhile (fun c => c ≠ '.') with
  | [] =>
      if int_part.isEmpty then none
      else (dec_digits_aux int_part 0).map (fun n => (signed.1 * n : Int))
  | '.' :: frac =>
      if int_part.isEmpty ∧ frac.isEmpty then none
      else
        match dec_digits_aux int_part 0, dec_digits_aux frac 0 with
        | some i, some f =>
            some ((signed.1 : Rat) * ((i : Rat) + (f : Rat) / ((10 : Rat) ^ frac.length)))
        | _, _ => none
  | _ => none

/-- Models CPython `int(str)` (optional sign, digits only): a fractional or
non-numeric string yields `none`, embedding the raised `ValueError`. -/
def parse_int_str (s : String) : Option Int :=
  match s.toList with
  | '-' :: rest =>
      if rest.isEmpty then none else (dec_digits_aux rest 0).map (fun n => -(n : Int))
  | '+' :: rest =>
      if rest.isEmpty then none else (dec_digits_aux rest 0).map (fun n => (n : Int))
  | cs => if cs.isEmpty then none else (dec_digits_aux cs 0).map (fun n => (n : Int))

/-- Python `int()` truncation of a real number toward zero. -/
def rat_trunc (q : Rat) : Int :=
  if q < 0 then q.ceil else q.floor

/-- Models CPython `float(user_value)` over the value shapes of `PyVal`. -/
def py_float : PyVal → Option Rat
  | .int n => some (n : Rat)
  | .float q => some q
  | .bool b => some (if b then 1 else 0)
  | .str s => parse_decimal s

/-- Models CPython `int(user_value)` over the value shapes of `PyVal`. -/
def py_int : PyVal → Option Int
  | .int n => some n
  | .float q => some (rat_trunc q)
  | .bool b => some (if b then 1 else 0)
  | .str s => parse_int_str s

/-- Python truthiness of a `PyVal` (used by the `bool` branch of
`encode_config_value` for non-string values). -/
def py_truthy : PyVal → Bool
  | .int n => n != 0
  | .float q => q != 0
  | .bool b => b
  | .str s => !s.isEmpty

/-- Result of `encode_config_value`: `ok offset raw` for a successful encode,
`invalid` for the `return None` validation failures, `exn` when the Python
code raises (a `ValueError` escaping from `float`/`int` conversion). -/
inductive EncodeResult where
  | ok (offset : Nat) (raw : Nat)
  | invalid
  | exn
deriving DecidableEq, Repr

/-- Body of `encode_config_value` for the matched register definition: the
writability check, the per-type conversion of `user_value` to a raw word, the
range check on the logical value `check_val` (before two's complement), and
the final `(offset, raw & 0xFFFF)`.  Two's complement of a negative `raw` is
`raw % 65536` on `Int` (Lean `%` on `Int` is `emod`, non-negative here). -/
def encode_value_for (r : ConfigReg) (user_value : PyVal) : EncodeResult :=
  if ¬ r.writable then .invalid
  else
    match r.dtype with
    | .te10 =>
        match py_float user_value with
        | none => .exn
        | some q =>
            let raw0 : Int := rat_trunc (q * 10)
            let raw : Int := if raw0 < 0 then raw0 % 65536 else raw0
            if raw0 < r.min_val ∨ r.max_val < raw0 then .invalid
            else .ok r.offset (raw % 65536).toNat
    | .bool =>
        let raw : Nat :=
          match user_value with
          | .str s => if ["true", "1", "on", "yes"].contains s.toLower then 1 else 0
          | v => if py_truthy v then 1 else 0
        if (raw : Int) < r.min_val ∨ r.max_val < (raw : Int) then .invalid
        else .ok r.offset (raw % 65536)
    | .word =>
        match py_int user_value with
        | none => .exn
        | some n =>
            if n < r.min_val ∨ r.max_val < n then .invalid
            else .ok r.offset ((n % 65536).toNat)

/-- Linear scan of `CONFIG_REGISTERS` for the first entry whose name matches
(`for entry in CONFIG_REGISTERS: if reg_name != name: continue ...`);
exhausting the list is the trailing `return None` (unknown register). -/
def encode_config_lookup : List ConfigReg → String → PyVal → EncodeResult
  | [], _, _ => .invalid
  | r :: rest, name, v =>
      if r.name = name then encode_value_for r v else encode_config_lookup rest name v

/-- Encode a user-provided value for writing to a config register
(`encode_config_value`). -/
def encode_config_value (name : String) (user_value : PyVal) : EncodeResult :=
  encode_config_lookup CONFIG_REGISTERS name user_value

/-- The logical value `check_val` that `encode_config_value` range-checks for
a given register definition and user value, when the per-type conversion
succeeds: `int(float(v) * 10)` for te10 (before any two's complement), the
0/1 word for bool, `int(v)` for word; `none` embeds a raised `ValueError`. -/
def encode_check_val (r : ConfigReg) (user_value : PyVal) : Option Int :=
  match r.dtype with
  | .te10 => (py_float user_value).map (fun q => rat_trunc (q * 10))
  | .bool =>
      let raw : Nat :=
        match user_value with
        | .str s => if ["true", "1", "on", "yes"].contains s.toLower then 1 else 0
        | v => if py_truthy v then 1 else 0
      some (raw : Int)
  | .word => py_int user_value

/-- Default register count for a config exchange (`CONFIG_REG_COUNT`). -/
def CONFIG_REG_COUNT : Nat := 50

/-- Outcome of the `send_and_receive` exchange inside `write_config_register`:
`timeout` when no matching response arrives before the deadline (the call
returns `None`), `fail` when the transport raises a `SerialException` during
the exchange, `resp p` when a packet with the expected function code arrives. -/
inductive Exchange where
  | timeout
  | fail
  | resp (p : Packet)

/-- Return value of `write_config_register`: `ok` = `True`, `failed` =
`False`, `exn` = an exception propagating out of the function. -/
inductive WriteOutcome where
  | ok
  | failed
  | exn
deriving DecidableEq, Repr

/-- Observable effect of one `write_config_register` call: its return value,
the cache (`cached_config_regs`) after the call, and the register-data bytes
passed to `build_write_request` (`none` when no request was sent). -/
structure WriteAttempt where
  outcome : WriteOutcome
  cache : Option (List Nat)
  sent_reg_data : Option (List Nat)
deriving DecidableEq, Repr

/-- Write a single config register using read-modify-write
(`write_config_register` in `main.py`), as a function of the cache before the
call and the outcome of the wire exchange.  The Python control flow is kept:
no cached block, a failed encode and an out-of-range offset return `False`
without touching the cache or the wire; otherwise the cache is mutated at the
target offset, the whole block is serialized and sent, and the response
handling (confirm / revert-on-`None`) follows; a transport exception
propagates out (`exn`) past the revert. -/
def write_config_register (cached_config_regs : Option (List Nat)) (reg_name : String)
    (value : PyVal) (exchange : Exchange) : WriteAttempt :=
  match cached_config_regs with
  | none => ⟨.failed, none, none⟩
  | some cache =>
    match encode_config_value reg_name value with
    | .exn => ⟨.exn, some cache, none⟩
    | .invalid => ⟨.failed, some cache, none⟩
    | .ok reg_offset raw_value =>
      if cache.length ≤ reg_offset then ⟨.failed, some cache, none⟩
      else
        let old_value := cache.getD reg_offset 0
        let modified := cache.set reg_offset raw_value
        let reg_data := registers_to_bytes modified
        match exchange with
        | .fail => ⟨.exn, some modified, some reg_data⟩
        | .timeout => ⟨.failed, some (modified.set reg_offset old_value), some reg_data⟩
        | .resp p =>
          match p.reg_data with
          | none => ⟨.failed, some (modified.set reg_offset old_value), some reg_data⟩
          | some rd =>
            let confirmed := extract_registers rd (p.reg_count.getD CONFIG_REG_COUNT)
            match confirmed with
            | [] => ⟨.ok, some modified, some reg_data⟩
            | _ =>
              if reg_offset < confirmed.length then
                if confirmed.getD reg_offset 0 = raw_value then ⟨.ok, some confirmed, some reg_data⟩
                else ⟨.failed, some confirmed, some reg_data⟩
              else ⟨.ok, some confirmed, some reg_data⟩

/-- Events of one iteration of the `main` loop that touch the
consecutive-error counter. -/
inductive MainEvent where
  | connect_fail
  | connect_ok
  | cycle_ok
  | serial_err
  | other_err
deriving DecidableEq, Repr

/-- Effect of one `main`-loop event on `consecutive_errors` in `main.py`:
new counter value and the wait before the next iteration, if any.  A failed
`conn.connect()` and a `SerialException` increment the counter and wait
`min(counter * 5, 60)`; a successful `conn.connect()` resets it to zero; a
completed `poll_direct` cycle resets it to zero; any other exception
increments it and waits a fixed 5 seconds. -/
def main_step (consecutive_errors : Nat) : MainEvent → Nat × Option Nat
  | .connect_fail => (consecutive_errors + 1, some (min ((consecutive_errors + 1) * 5) 60))
  | .connect_ok => (0, none)
  | .cycle_ok => (0, none)
  | .serial_err => (consecutive_errors + 1, some (min ((consecutive_errors + 1) * 5) 60))
  | .other_err => (consecutive_errors + 1, some 5)

/-- Counter dynamics exactly as claim C8 words them, for comparison with
`main_step`: the counter is reset to zero ONLY by a fully successful cycle,
so a successful `conn.connect()` leaves it unchanged. -/
def claimed_main_step (consecutive_errors : Nat) : MainEvent → Nat × Option Nat
  | .connect_fail => (consecutive_errors + 1, some (min ((consecutive_errors + 1) * 5) 60))
  | .connect_ok => (consecutive_errors, none)
  | .cycle_ok => (0, none)
  | .serial_err => (consecutive_errors + 1, some (min ((consecutive_errors + 1) * 5) 60))
  | .other_err => (consecutive_errors + 1, some 5)

/-- Run a sequence of main-loop events through a counter-dynamics function,
collecting the wait chosen after each event and the final counter. -/
def run_main_trace (step : Nat → MainEvent → Nat × Option Nat) (errors : Nat) :
    List MainEvent → List (Option Nat) × Nat
  | [] => ([], errors)
  | e :: rest =>
      let s := step errors e
      let r := run_main_trace step s.1 rest
      (s.2 :: r.1, r.2)

/-- Transport-failure events of the main loop (connection attempt failed, or
`SerialException` during the cycle). -/
def is_transport_fail : MainEvent → Bool
  | .connect_fail => true
  | .serial_err => true
  | _ => false

/-- Disjunction of the exact conditions under which `parse_packet` reports an
invalid packet, in the order the code checks them: buffer shorter than the
minimum packet size, first byte not the start marker, header checksum
mismatch, declared payload length exceeding the available bytes, payload
shorter than the minimum needed for a checksum, payload checksum mismatch. -/
def parse_invalid_cond (data : List Nat) : Prop :=
  data.length < 8 + 7 ∨
  data.getD 0 0 ≠ 0x69 ∨
  crc8_dvb_s2 (data.take 7) 0 ≠ data.getD 7 0 ∨
  data.length < 8 + data.getD 6 0 ∨
  ((data.drop 8).take (data.getD 6 0)).length < 7 ∨
  (let payload := (data.drop 8).take (data.getD 6 0)
   crc16 (payload.take (payload.length - 2)) 0 ≠
     payload.getD (payload.length - 2) 0 * 256 + payload.getD (payload.length - 1) 0)

/-- The ten payload bytes of the spec's concrete status read request:
`02 00 01 00 40 80 00 32 64 00` (start=100 little-endian, count=50). -/
def c1_payload : List Nat := [0x02, 0x00, 0x01, 0x00, 0x40, 0x80, 0x00, 0x32, 0x64, 0x00]

/-- The packet claim C1 describes: header `69 02 01 84 00 00 0D` followed by
its header checksum, then `c1_payload` followed by its payload checksum. -/
def c1_claimed_packet : List Nat :=
  [0x69, 0x02, 0x01, 0x84, 0x00, 0x00, 0x0D,
    crc8_dvb_s2 [0x69, 0x02, 0x01, 0x84, 0x00, 0x00, 0x0D] 0] ++
  c1_payload ++ [crc16 c1_payload 0 / 256, crc16 c1_payload 0 % 256]

/-- The packet the code actually builds for that request: identical except
that the declared payload length is `0x0C` (the payload is 12 bytes: ten
bytes plus the two checksum bytes). -/
def c1_actual_packet : List Nat :=
  [0x69, 0x02, 0x01, 0x84, 0x00, 0x00, 0x0C,
    crc8_dvb_s2 [0x69, 0x02, 0x01, 0x84, 0x00, 0x00, 0x0C] 0] ++
  c1_payload ++ [crc16 c1_payload 0 / 256, crc16 c1_payload 0 % 256]

/-!
Theorems.  Each claim of the specification audit is settled by exactly one
theorem below, preceded by a doc comment naming the claim.
-/

/-- Helper: setting an index of a list to the value it already holds leaves
the list unchanged. -/
theorem list_set_getD_self (l : List Nat) (n d : Nat) (h : n < l.length) :
    l.set n (l.getD n d) = l := by
  induction l generalizing n with
  | nil => simp at h
  | cons a t ih =>
      cases n with
      | zero => simp [List.getD]
      | succ m =>
          simp only [List.length_cons, Nat.succ_lt_succ_iff] at h
          simp only [List.getD_cons_succ, List.set_cons_succ]
          rw [ih m h]

/-- Helper: `getD` of `set` at a different index. -/
theorem list_getD_set_ne (l : List Nat) {n m : Nat} (a d : Nat) (h : n ≠ m) :
    (l.set n a).getD m d = l.getD m d := by
  simp [List.getD, List.getElem?_set_ne h]

/-- Helper: `getD` of `set` at the written index. -/
theorem list_getD_set_self (l : List Nat) {n : Nat} (a d : Nat) (h : n < l.length) :
    (l.set n a).getD n d = a := by
  simp [List.getD, List.getElem?_set_self', h]

/-- Helper: serializing a block of 16-bit register values and extracting the
same number of registers returns the block unchanged. -/
theorem extract_registers_roundtrip (regs : List Nat) (h : ∀ v ∈ regs, v < 65536) :
    extract_registers (registers_to_bytes regs) regs.length = regs := by
  induction regs with
  | nil => rfl
  | cons v rest ih =>
      have hv : v % 65536 = v := Nat.mod_eq_of_lt (h v (List.mem_cons_self v rest))
      have hrest := ih (fun x hx => h x (List.mem_cons_of_mem v hx))
      simp only [registers_to_bytes, List.length_cons, extract_registers, hrest]
      congr 1
      omega

/-- C10: register-block serialization round-trips — for every list of register
values each below 2^16, converting the list to raw bytes with
`registers_to_bytes` and extracting that many registers back with
`extract_registers` returns the original list unchanged. -/
theorem c10_register_serialization_roundtrip (regs : List Nat)
    (h : ∀ v ∈ regs, v < 65536) :
    extract_registers (registers_to_bytes regs) regs.length = regs :=
  extract_registers_roundtrip regs h

/-- C10 witness: the round-trip at the concrete block `[100, 65535]`. -/
theorem c10_register_serialization_roundtrip_witness :
    extract_registers (registers_to_bytes [100, 65535]) ([100, 65535] : List Nat).length =
      [100, 65535] :=
  c10_register_serialization_roundtrip [100, 65535] (by decide)

set_option maxRecDepth 10000 in
/-- C1 counterexample: the packet of the claim, with declared payload length
`0x0D`, does not parse (its 12-byte payload is shorter than the declared 13
bytes), and it is not what `build_read_request` produces for the stated
parameters. -/
theorem c1_claimed_vector_fails :
    parse_packet c1_claimed_packet = none ∧
    build_read_request 2 1 2 1 0x40 100 50 ≠ c1_claimed_packet := by decide

set_option maxRecDepth 10000 in
/-- C1 (amended): with declared payload length `0x0C`, building a status read
request to dst_hard=2, src_hard=1 (dst_soft=2, src_soft=1), function code
`0x40`, register start 100 and register count 50 produces exactly the header
`69 02 01 84 00 00 0C` plus its header checksum followed by the payload
`02 00 01 00 40 80 00 32 64 00` plus its payload checksum, and parsing that
packet reproduces dst_hard=2, src_hard=1, function_code=0x40,
register_start=100 and register_count=50. -/
theorem c1_status_read_vector :
    build_read_request 2 1 2 1 0x40 100 50 = c1_actual_packet ∧
    parse_packet c1_actual_packet =
      some { dst_hard := 2, src_hard := 1, dst_soft := 2, src_soft := 1, fnc := 0x40,
             raw_payload := c1_payload, total_len := 20, sub_fnc := some 0x80,
             reg_start := some 100, reg_count := some 50, reg_data := none } := by decide

/-- C2: evaluation of `write_config_register` at a failing input.  With cache
`[7, 0]`, writing `HeatPumpEnabled := true` (offset 1, raw word 1) while the
transport raises during the exchange leaves the cache mutated at `[7, 1]` —
the revert only runs on the no-response path, where the cache correctly
returns to `[7, 0]`. -/
theorem c2_transport_failure_keeps_mutation :
    write_config_register (some [7, 0]) "HeatPumpEnabled" (.bool true) .fail =
      ⟨.exn, some [7, 1], some [0, 7, 0, 1]⟩ ∧
    write_config_register (some [7, 0]) "HeatPumpEnabled" (.bool true) .timeout =
      ⟨.failed, some [7, 0], some [0, 7, 0, 1]⟩ ∧
    some [7, 1] ≠ (some [7, 0] : Option (List Nat)) := by decide

/-- C8 counterexample: after two failed connection attempts, a successful
`conn.connect()` alone (no completed poll cycle) resets the code's counter,
so the next transport failure waits 5 seconds; under the claim's dynamics
(reset only on a fully successful cycle) it would wait 15 seconds. -/
theorem c8_reset_on_connect_counterexample :
    (run_main_trace main_step 0
        [.connect_fail, .connect_fail, .connect_ok, .serial_err]).1 =
      [some 5, some 10, none, some 5] ∧
    (run_main_trace claimed_main_step 0
        [.connect_fail, .connect_fail, .connect_ok, .serial_err]).1 =
      [some 5, some 10, none, some 15] ∧
    (some 5 : Option Nat) ≠ some 15 := by decide

/-- Helper: a run of consecutive transport failures starting at counter `n`
produces the waits `min((n+1)*5, 60), min((n+2)*5, 60), ...`. -/
theorem run_main_trace_failures (es : List MainEvent) (n : Nat)
    (h : ∀ e ∈ es, is_transport_fail e = true) :
    (run_main_trace main_step n es).1 =
      (List.range es.length).map (fun i => some (min ((n + i + 1) * 5) 60)) := by
  induction es generalizing n with
  | nil => rfl
  | cons e rest ih =>
      have he := h e (List.mem_cons_self e rest)
      have hrest := fun m => ih m (fun x hx => h x (List.mem_cons_of_mem e hx))
      have hmap : ∀ m : Nat,
          (List.range (rest.length + 1)).map (fun i => some (min ((m + i + 1) * 5) 60)) =
            some (min ((m + 1) * 5) 60) ::
              (List.range rest.length).map (fun i => some (min ((m + 1 + i + 1) * 5) 60)) := by
        intro m
        rw [List.range_succ_eq_map, List.map_cons, List.map_map]
        refine congrArg₂ _ (by norm_num) (List.map_congr_left ?_)
        intro i _
        simp only [Function.comp_apply]
        congr 2
        omega
      cases e with
      | connect_fail =>
          simp only [run_main_trace, main_step, List.length_cons, hmap n, hrest (n + 1)]
      | serial_err =>
          simp only [run_main_trace, main_step, List.length_cons, hmap n, hrest (n + 1)]
      | connect_ok => simp [is_transport_fail] at he
      | cycle_ok => simp [is_transport_fail] at he
      | other_err => simp [is_transport_fail] at he

/-- Helper: a successful `encode_value_for` always returns a raw word below
2^16 (the code masks with `& 0xFFFF`). -/
theorem encode_value_for_raw_lt (r : ConfigReg) (v : PyVal) (off raw : Nat)
    (h : encode_value_for r v = .ok off raw) : raw < 65536 := by
  unfold encode_value_for at h
  by_cases hw : r.writable
  · simp only [hw, not_true_eq_false, if_false] at h
    cases hd : r.dtype <;> simp only [hd] at h
    · -- word
      cases hn : py_int v <;> simp only [hn] at h
      · cases h
      · split_ifs at h <;> cases h <;> omega
    · -- te10
      cases hq : py_float v <;> simp only [hq] at h
      · cases h
      · split_ifs at h <;> cases h <;> omega
    · -- bool
      split_ifs at h <;> cases h <;> omega
  · simp only [hw, not_false_eq_true, if_true] at h
    cases h

/-- Helper: `encode_config_lookup` version of `encode_value_for_raw_lt`. -/
theorem encode_config_lookup_raw_lt (l : List ConfigReg) (name : String) (v : PyVal)
    (off raw : Nat) (h : encode_config_lookup l name v = .ok off raw) : raw < 65536 := by
  induction l with
  | nil => simp [encode_config_lookup] at h
  | cons r rest ih =>
      unfold encode_config_lookup at h
      split_ifs at h
      · exact encode_value_for_raw_lt r v off raw h
      · exact ih h

/-- Helper: an unknown register name makes `encode_config_lookup` fall off the
end of the table and report a validation failure. -/
theorem encode_config_lookup_unknown (l : List ConfigReg) (name : String) (v : PyVal)
    (h : ∀ r ∈ l, r.name ≠ name) : encode_config_lookup l name v = .invalid := by
  induction l with
  | nil => rfl
  | cons r rest ih =>
      unfold encode_config_lookup
      rw [if_neg (h r (List.mem_cons_self r rest))]
      exact ih (fun x hx => h x (List.mem_cons_of_mem r hx))

/-- Helper: when the table's names are distinct, looking up a member entry by
its name evaluates the encode body on exactly that entry. -/
theorem encode_config_lookup_first (l : List ConfigReg) (name : String) (v : PyVal)
    (r : ConfigReg) (hmem : r ∈ l) (hname : r.name = name)
    (hnd : (l.map ConfigReg.name).Nodup) :
    encode_config_lookup l name v = encode_value_for r v := by
  induction l with
  | nil => cases hmem
  | cons r0 rest ih =>
      rw [List.map_cons, List.nodup_cons] at hnd
      obtain ⟨hn0, hndr⟩ := hnd
      unfold encode_config_lookup
      rcases List.mem_cons.mp hmem with rfl | hmem2
      · rw [if_pos hname]
      · by_cases h0 : r0.name = name
        · exfalso
          apply hn0
          rw [h0, ← hname]
          exact List.mem_map_of_mem ConfigReg.name hmem2
        · rw [if_neg h0]
          exact ih hmem2 hndr

/-- Helper: a logical value outside the declared range makes
`encode_value_for` report a validation failure, for every register definition
and every value whose conversion succeeds (a non-writable register fails
validation regardless). -/
theorem encode_value_for_out_of_range (r : ConfigReg) (v : PyVal) (c : Int)
    (hc : encode_check_val r v = some c)
    (hout : c < r.min_val ∨ r.max_val < c) :
    encode_value_for r v = .invalid := by
  by_cases hw : r.writable
  · unfold encode_value_for encode_check_val at *
    simp only [hw, not_true_eq_false, if_false]
    cases hd : r.dtype <;> simp only [hd] at hc ⊢
    · -- word
      cases hn : py_int v <;> simp only [hn] at hc ⊢
      · cases hc
      · cases hc
        split_ifs
        rfl
    · -- te10
      cases hq : py_float v <;>
        simp only [hq, Option.map_none', Option.map_some'] at hc ⊢
      · cases hc
      · cases hc
        split_ifs
        rfl
    · -- bool
      cases hc
      split_ifs
      rfl
  · unfold encode_value_for
    simp [hw]

/-- C7 counterexample: encoding the te10 register `TapWaterTemp` from the
shape-invalid string "abc" raises (the `ValueError` of `float("abc")`
propagates out of `encode_config_value`), instead of returning the validation
failure the claim promises. -/
theorem c7_shape_error_raises :
    encode_config_value "TapWaterTemp" (.str "abc") = .exn ∧
    EncodeResult.exn ≠ EncodeResult.invalid := by decide

/-- C7 (amended): `encode_config_value` returns a validation failure (not an
exception) for an unknown register name, for a non-writable register
(`InstallationScheme` is the table's only non-writable entry), and — for
every register of the table and every user value whose conversion succeeds —
whenever the logical value `check_val` (computed before any two's-complement
encoding) lies outside the register's declared valid range; on any validation
failure the write path sends no wire traffic and leaves the cached config
block unchanged.  (A shape-invalid value for a numeric register instead
raises, per the counterexample.) -/
theorem c7_validation_failures :
    (∀ name v, (∀ r ∈ CONFIG_REGISTERS, r.name ≠ name) →
        encode_config_value name v = .invalid) ∧
    (∀ v, encode_config_value "InstallationScheme" v = .invalid) ∧
    (∀ name v r (c : Int), r ∈ CONFIG_REGISTERS → r.name = name →
        encode_check_val r v = some c → (c < r.min_val ∨ r.max_val < c) →
        encode_config_value name v = .invalid) ∧
    (∀ cache name v ex, encode_config_value name v = .invalid →
        write_config_register (some cache) name v ex =
          ⟨.failed, some cache, none⟩) := by
  refine ⟨?_, ?_, ?_, ?_⟩
  · intro name v h
    exact encode_config_lookup_unknown CONFIG_REGISTERS name v h
  · intro v
    rfl
  · intro name v r c hmem hname hc hout
    unfold encode_config_value
    rw [encode_config_lookup_first CONFIG_REGISTERS name v r hmem hname (by decide)]
    exact encode_value_for_out_of_range r v c hc hout
  · intro cache name v ex h
    simp [write_config_register, h]

/-- C3: with a cached config block of 16-bit words, a write of register `X`
sends exactly the serialized `cache.set X raw`; decoded back to 16-bit words
this equals the pre-write cache at every offset other than `X` and the newly
encoded raw word at `X`. -/
theorem c3_write_isolation (cache : List Nat) (name : String) (v : PyVal) (ex : Exchange)
    (off raw : Nat) (hb : ∀ x ∈ cache, x < 65536)
    (he : encode_config_value name v = .ok off raw) (hoff : off < cache.length) :
    (write_config_register (some cache) name v ex).sent_reg_data =
      some (registers_to_bytes (cache.set off raw)) ∧
    extract_registers (registers_to_bytes (cache.set off raw)) cache.length =
      cache.set off raw ∧
    (∀ i, i ≠ off → (cache.set off raw).getD i 0 = cache.getD i 0) ∧
    (cache.set off raw).getD off 0 = raw := by
  have hraw : raw < 65536 := encode_config_lookup_raw_lt CONFIG_REGISTERS name v off raw he
  have hset : ∀ x ∈ cache.set off raw, x < 65536 := by
    intro x hx
    rcases List.mem_or_eq_of_mem_set hx with h1 | h2
    · exact hb x h1
    · omega
  refine ⟨?_, ?_, ?_, ?_⟩
  · simp only [write_config_register, he]
    rw [if_neg (by omega : ¬ cache.length ≤ off)]
    cases ex with
    | fail => rfl
    | timeout => rfl
    | resp p =>
        cases hp : p.reg_data with
        | none => simp only [hp]
        | some rd =>
            simp only [hp]
            cases hc : extract_registers rd (p.reg_count.getD CONFIG_REG_COUNT) with
            | nil => simp only [hc]
            | cons c cs =>
                simp only [hc]
                split_ifs <;> rfl
  · have h2 := extract_registers_roundtrip (cache.set off raw) hset
    rwa [List.length_set] at h2
  · intro i hi
    exact list_getD_set_ne cache raw 0 (Ne.symm hi)
  · exact list_getD_set_self cache raw 0 hoff

/-- C3 witness: the isolation property at the concrete cache `[7, 0]` for a
write of `HeatPumpEnabled := true` (offset 1, raw word 1). -/
theorem c3_write_isolation_witness :
    (write_config_register (some [7, 0]) "HeatPumpEnabled" (.bool true)
        .timeout).sent_reg_data =
      some (registers_to_bytes (([7, 0] : List Nat).set 1 1)) ∧
    extract_registers (registers_to_bytes (([7, 0] : List Nat).set 1 1))
        ([7, 0] : List Nat).length = ([7, 0] : List Nat).set 1 1 ∧
    (∀ i, i ≠ 1 → ((([7, 0] : List Nat).set 1 1).getD i 0 =
      ([7, 0] : List Nat).getD i 0)) ∧
    (([7, 0] : List Nat).set 1 1).getD 1 0 = 1 :=
  c3_write_isolation [7, 0] "HeatPumpEnabled" (.bool true) .timeout 1 1
    (by decide) (by decide) (by decide)

/-- C8 (amended): with the counter starting at zero, k consecutive transport
failures wait `min(5, 60), min(10, 60), ..., min(5k, 60)` seconds; the counter
is reset to zero by a fully successful cycle AND by a successful
(re)connection, and after either reset the next transport failure waits 5
seconds. -/
theorem c8_backoff_behavior :
    (∀ es : List MainEvent, (∀ e ∈ es, is_transport_fail e = true) →
        (run_main_trace main_step 0 es).1 =
          (List.range es.length).map (fun i => some (min ((i + 1) * 5) 60))) ∧
    (∀ n, (main_step n .cycle_ok).1 = 0) ∧
    (∀ n, (main_step n .connect_ok).1 = 0) ∧
    (main_step 0 .serial_err).2 = some 5 ∧
    (main_step 0 .connect_fail).2 = some 5 := by
  refine ⟨?_, fun n => rfl, fun n => rfl, by decide, by decide⟩
  intro es h
  rw [run_main_trace_failures es 0 h]
  simp

/-- Helper: facts every successfully parsed packet satisfies: the buffer holds
at least the 15-byte minimum, starts with the marker, and contains the whole
declared packet, whose total length the parse reports. -/
theorem parse_packet_some_facts (data : List Nat) (p : Packet)
    (h : parse_packet data = some p) :
    15 ≤ data.length ∧ data.getD 0 0 = 0x69 ∧ p.total_len = 8 + data.getD 6 0 ∧
      8 + data.getD 6 0 ≤ data.length := by
  simp only [parse_packet] at h
  split_ifs at h with h1 h2 h3 h4 h5 h6 h7 h8 <;> cases h <;>
    exact ⟨by omega, not_not.mp h2, rfl, by omega⟩

/-- C6: `parse_packet` reports an invalid packet exactly under the conditions
of `parse_invalid_cond` (short buffer, wrong start marker, header checksum
mismatch, declared payload length exceeding the buffer, payload too short for
a checksum, payload checksum mismatch) — and on a successfully parsed response
packet (function code `0x50` or `0x70`) with a full-size payload the register
data is populated unconditionally, so a `register_count * 2` mismatch with the
data length never invalidates the packet. -/
theorem c6_parse_invalid_iff :
    ∀ data : List Nat,
      (parse_packet data = none ↔ parse_invalid_cond data) ∧
      (∀ p, parse_packet data = some p → (p.fnc = 0x50 ∨ p.fnc = 0x70) →
        10 ≤ p.raw_payload.length → p.reg_data = some (p.raw_payload.drop 10)) := by
  intro data
  constructor
  · simp only [parse_packet, parse_invalid_cond]
    split_ifs with h1 h2 h3 h4 h5 h6 h7 h8
    · exact iff_of_true rfl (Or.inl h1)
    · exact iff_of_true rfl (Or.inr (Or.inl h2))
    · exact iff_of_true rfl (Or.inr (Or.inr (Or.inl h3)))
    · exact iff_of_true rfl (Or.inr (Or.inr (Or.inr (Or.inl h4))))
    · exact iff_of_true rfl (Or.inr (Or.inr (Or.inr (Or.inr (Or.inl h5)))))
    · exact iff_of_true rfl (Or.inr (Or.inr (Or.inr (Or.inr (Or.inr h6)))))
    all_goals
      exact iff_of_false (by simp)
        (by rintro (d | d | d | d | d | d)
            exacts [h1 d, h2 d, h3 d, h4 d, h5 d, h6 d])
  · intro p hp hfnc hlen
    simp only [parse_packet] at hp
    split_ifs at hp with h1 h2 h3 h4 h5 h6 h7 h8 <;> cases hp
    · rfl
    · exact absurd hfnc h8
    · exact absurd hlen h7

/-- Helper: unfolding one iteration of `find_packets_aux` through `loop_step`
when the scan position is inside the buffer. -/
theorem find_packets_aux_step (buffer : List Nat) (pos : Nat) (h : pos < buffer.length) :
    find_packets_aux buffer pos =
      match loop_step buffer pos with
      | .emit p next => (p, next) :: find_packets_aux buffer next
      | .skip next => find_packets_aux buffer next
      | .stop => [] := by
  rw [find_packets_aux]
  rw [dif_pos h]
  unfold loop_step
  cases find_marker_idx (buffer.drop pos) with
  | none => rfl
  | some k =>
      dsimp only
      split_ifs with h8 ht
      · rfl
      · rfl
      · cases parse_packet
          ((buffer.drop (pos + k)).take (8 + (buffer.drop (pos + k)).getD 6 0)) <;> rfl

/-- Helper: the three possible shapes of a `loop_step` outcome, with the new
scan position made explicit relative to `pos`. -/
theorem loop_step_cases (buffer : List Nat) (pos : Nat) :
    loop_step buffer pos = .stop ∨
    (∃ p k t, loop_step buffer pos = .emit p (pos + k + t) ∧ 8 ≤ t) ∨
    (∃ k, loop_step buffer pos = .skip (pos + k + 1)) := by
  unfold loop_step
  cases find_marker_idx (buffer.drop pos) with
  | none => exact Or.inl rfl
  | some k =>
      dsimp only
      split_ifs with h8 ht
      · exact Or.inl rfl
      · exact Or.inl rfl
      · cases parse_packet
            ((buffer.drop (pos + k)).take (8 + (buffer.drop (pos + k)).getD 6 0)) with
        | some q => exact Or.inr (Or.inl ⟨q, k, _, rfl, by omega⟩)
        | none => exact Or.inr (Or.inr ⟨k, rfl⟩)

/-- Helper: a non-stop `loop_step` outcome strictly advances the scan
position. -/
theorem loop_step_advances (buffer : List Nat) (pos : Nat) :
    (∀ p next, loop_step buffer pos = .emit p next → pos < next) ∧
    (∀ next, loop_step buffer pos = .skip next → pos < next) := by
  constructor
  · intro p next h
    rcases loop_step_cases buffer pos with hc | ⟨q, k, t, hc, ht⟩ | ⟨k, hc⟩ <;>
      rw [hc] at h <;> cases h <;> omega
  · intro next h
    rcases loop_step_cases buffer pos with hc | ⟨q, k, t, hc, ht⟩ | ⟨k, hc⟩ <;>
      rw [hc] at h <;> cases h <;> omega

/-- C9: the stream framer makes strict forward progress and hence terminates:
whenever the scan position is inside the buffer, one `loop_step` iteration
either emits a parsed packet and continues past its consumed bytes, advances
the position by exactly one byte past a failed start-marker candidate, or
stops for more data, and in the two non-stopping cases the new position is
strictly greater. -/
theorem c9_framer_progress (buffer : List Nat) (pos : Nat) (h : pos < buffer.length) :
    match loop_step buffer pos with
    | .emit p next => pos < next ∧
        find_packets_aux buffer pos = (p, next) :: find_packets_aux buffer next
    | .skip next => pos < next ∧
        find_packets_aux buffer pos = find_packets_aux buffer next
    | .stop => find_packets_aux buffer pos = [] := by
  cases hs : loop_step buffer pos with
  | emit p next =>
      refine ⟨(loop_step_advances buffer pos).1 p next hs, ?_⟩
      rw [find_packets_aux_step buffer pos h, hs]
  | skip next =>
      refine ⟨(loop_step_advances buffer pos).2 next hs, ?_⟩
      rw [find_packets_aux_step buffer pos h, hs]
  | stop =>
      rw [find_packets_aux_step buffer pos h, hs]

/-- C9 witness: the progress statement at the concrete one-byte buffer
`[0x69]` (a bare start marker: the framer stops, needing more data). -/
theorem c9_framer_progress_witness :
    (match loop_step [0x69] 0 with
      | .emit p next => 0 < next ∧
          find_packets_aux [0x69] 0 = (p, next) :: find_packets_aux [0x69] next
      | .skip next => 0 < next ∧
          find_packets_aux [0x69] 0 = find_packets_aux [0x69] next
      | .stop => find_packets_aux [0x69] 0 = []) :=
  c9_framer_progress [0x69] 0 (by decide)

/-- Helper: `getD` on an append, index inside the left part. -/
theorem list_getD_append_left (l l2 : List Nat) (n d : Nat) (h : n < l.length) :
    (l ++ l2).getD n d = l.getD n d := by
  simp [List.getD, List.getElem?_append_left h]

/-- Helper: a list without the start marker has no marker index. -/
theorem find_marker_idx_none (l : List Nat) (h : ∀ b ∈ l, b ≠ 0x69) :
    find_marker_idx l = none := by
  induction l with
  | nil => rfl
  | cons a t ih =>
      simp only [find_marker_idx]
      rw [if_neg (h a (List.mem_cons_self a t)),
        ih (fun b hb => h b (List.mem_cons_of_mem a hb))]
      rfl

/-- Helper: marker-free garbage followed by a list that starts with the
marker puts the first marker index exactly at the garbage length. -/
theorem find_marker_idx_append (g l : List Nat) (hg : ∀ b ∈ g, b ≠ 0x69)
    (hl : l.getD 0 0 = 0x69) (hne : l ≠ []) :
    find_marker_idx (g ++ l) = some g.length := by
  induction g with
  | nil =>
      cases l with
      | nil => exact absurd rfl hne
      | cons b t =>
          have hb : b = 0x69 := hl
          simp [find_marker_idx, hb]
  | cons a g2 ih =>
      have ha := hg a (List.mem_cons_self a g2)
      simp only [List.cons_append, find_marker_idx, List.append_eq]
      rw [if_neg ha, ih (fun b hb => hg b (List.mem_cons_of_mem a hb))]
      rfl

/-- C5: resynchronization — a buffer of marker-free garbage, then exactly one
valid packet, then more marker-free garbage yields exactly one parsed packet,
whose end offset is the garbage length plus the packet's total length. -/
theorem c5_resynchronization (g1 pkt g2 : List Nat) (p : Packet)
    (hg1 : ∀ b ∈ g1, b ≠ 0x69) (hg2 : ∀ b ∈ g2, b ≠ 0x69)
    (hp : parse_packet pkt = some p) (hlen : pkt.length = p.total_len) :
    find_packets (g1 ++ pkt ++ g2) = [(p, g1.length + p.total_len)] := by
  obtain ⟨h15, h0, htot, hle⟩ := parse_packet_some_facts pkt p hp
  have hpg2_ne : pkt ++ g2 ≠ [] := by
    cases pkt with
    | nil => simp at h15
    | cons b t => simp
  have hpg2_0 : (pkt ++ g2).getD 0 0 = 0x69 := by
    rw [list_getD_append_left pkt g2 0 0 (by omega), h0]
  have hdrop1 : (g1 ++ pkt ++ g2).drop (0 + g1.length) = pkt ++ g2 := by
    rw [Nat.zero_add, List.append_assoc]
    exact List.drop_left g1 (pkt ++ g2)
  have hg6 : (pkt ++ g2).getD 6 0 = pkt.getD 6 0 :=
    list_getD_append_left pkt g2 6 0 (by omega)
  have htake : (pkt ++ g2).take (8 + pkt.getD 6 0) = pkt := by
    rw [show 8 + pkt.getD 6 0 = pkt.length from by omega]
    exact List.take_left pkt g2
  have hpos0 : 0 < (g1 ++ pkt ++ g2).length := by
    simp only [List.length_append]
    omega
  have hstep1 : loop_step (g1 ++ pkt ++ g2) 0 =
      .emit p (0 + g1.length + (8 + pkt.getD 6 0)) := by
    unfold loop_step
    cases hk : find_marker_idx ((g1 ++ pkt ++ g2).drop 0) with
    | none =>
        rw [List.drop_zero, List.append_assoc,
          find_marker_idx_append g1 (pkt ++ g2) hg1 hpg2_0 hpg2_ne] at hk
        cases hk
    | some k =>
        rw [List.drop_zero, List.append_assoc,
          find_marker_idx_append g1 (pkt ++ g2) hg1 hpg2_0 hpg2_ne] at hk
        cases hk
        dsimp only
        rw [hdrop1, hg6]
        rw [if_neg (by rw [List.length_append]; omega)]
        rw [if_neg (by rw [List.length_append]; omega)]
        rw [htake, hp]
  unfold find_packets
  rw [find_packets_aux_step _ 0 hpos0, hstep1]
  show (p, 0 + g1.length + (8 + pkt.getD 6 0)) ::
      find_packets_aux (g1 ++ pkt ++ g2) (0 + g1.length + (8 + pkt.getD 6 0)) =
    [(p, g1.length + p.total_len)]
  have hX : 0 + g1.length + (8 + pkt.getD 6 0) = g1.length + p.total_len := by omega
  rw [hX]
  have htail : find_packets_aux (g1 ++ pkt ++ g2) (g1.length + p.total_len) = [] := by
    by_cases hpos : g1.length + p.total_len < (g1 ++ pkt ++ g2).length
    · have hdrop2 : (g1 ++ pkt ++ g2).drop (g1.length + p.total_len) = g2 := by
        rw [show g1.length + p.total_len = (g1 ++ pkt).length from by
          rw [List.length_append]
          omega]
        exact List.drop_left (g1 ++ pkt) g2
      have hstep2 : loop_step (g1 ++ pkt ++ g2) (g1.length + p.total_len) = .stop := by
        unfold loop_step
        rw [hdrop2, find_marker_idx_none g2 hg2]
      rw [find_packets_aux_step _ _ hpos, hstep2]
    · rw [find_packets_aux, dif_neg hpos]
  rw [htail]

set_option maxRecDepth 10000 in
/-- C5 witness: two garbage bytes around the concrete 20-byte status read
request packet give exactly one parsed packet ending at offset 21. -/
theorem c5_resynchronization_witness :
    find_packets (([0] : List Nat) ++
        [105, 2, 1, 132, 0, 0, 12, 246, 2, 0, 1, 0, 64, 128, 0, 50, 100, 0, 189, 178] ++
        [1]) =
      [(⟨2, 1, 2, 1, 64, [2, 0, 1, 0, 64, 128, 0, 50, 100, 0], 20,
          some 128, some 100, some 50, none⟩,
        ([0] : List Nat).length +
          Packet.total_len ⟨2, 1, 2, 1, 64, [2, 0, 1, 0, 64, 128, 0, 50, 100, 0], 20,
            some 128, some 100, some 50, none⟩)] :=
  c5_resynchronization [0]
    [105, 2, 1, 132, 0, 0, 12, 246, 2, 0, 1, 0, 64, 128, 0, 50, 100, 0, 189, 178] [1]
    ⟨2, 1, 2, 1, 64, [2, 0, 1, 0, 64, 128, 0, 50, 100, 0], 20,
      some 128, some 100, some 50, none⟩
    (by decide) (by decide) (by decide) (by decide)

/-- C4: round-trip — parsing the bytes produced by `build_read_request` with
any 8-bit addresses and function code, 16-bit register start and 8-bit
register count succeeds and returns the same dst_hard, src_hard, dst_soft,
src_soft, function code, register start and register count. -/
theorem c4_read_request_roundtrip (dh sh ds ss fnc rs rc : Nat)
    (hdh : dh < 256) (hsh : sh < 256) (hds : ds < 256) (hss : ss < 256)
    (hfnc : fnc < 256) (hrs : rs < 65536) (hrc : rc < 256) :
    ∃ p, parse_packet (build_read_request dh sh ds ss fnc rs rc) = some p ∧
      p.dst_hard = dh ∧ p.src_hard = sh ∧ p.dst_soft = ds ∧ p.src_soft = ss ∧
      p.fnc = fnc ∧ p.reg_start = some rs ∧ p.reg_count = some rc := by
  have hrc2 : rc % 256 = rc := Nat.mod_eq_of_lt hrc
  have hhi : rs / 256 % 256 = rs / 256 := Nat.mod_eq_of_lt (by omega)
  have hbuild : build_read_request dh sh ds ss fnc rs rc = [105, dh, sh, 132, 0, 0, 12, crc8_dvb_s2 [105, dh, sh, 132, 0, 0, 12] 0, ds, 0, ss, 0, fnc, 128, 0, rc, rs % 256, rs / 256, crc16 [ds, 0, ss, 0, fnc, 128, 0, rc, rs % 256, rs / 256] 0 / 256, crc16 [ds, 0, ss, 0, fnc, 128, 0, rc, rs % 256, rs / 256] 0 % 256] := by
    simp [build_read_request, build_payload, build_header, hrc2, hhi]
  refine ⟨{ dst_hard := dh, src_hard := sh, dst_soft := ds, src_soft := ss, fnc := fnc,
            raw_payload := [ds, 0, ss, 0, fnc, 128, 0, rc, rs % 256, rs / 256], total_len := 20, sub_fnc := some 128,
            reg_start := some (rs % 256 + 256 * (rs / 256)), reg_count := some rc,
            reg_data := if fnc = 80 ∨ fnc = 112 then some [] else none },
        ?_, rfl, rfl, rfl, rfl, rfl, ?_, rfl⟩
  · rw [hbuild]
    simp only [parse_packet]
    rw [show List.length [105, dh, sh, 132, 0, 0, 12, crc8_dvb_s2 [105, dh, sh, 132, 0, 0, 12] 0, ds, 0, ss, 0, fnc, 128, 0, rc, rs % 256, rs / 256, crc16 [ds, 0, ss, 0, fnc, 128, 0, rc, rs % 256, rs / 256] 0 / 256, crc16 [ds, 0, ss, 0, fnc, 128, 0, rc, rs % 256, rs / 256] 0 % 256] = 20 from rfl]
    rw [if_neg (by norm_num : ¬ ((20:Nat) < 8 + 7))]
    rw [show List.getD [105, dh, sh, 132, 0, 0, 12, crc8_dvb_s2 [105, dh, sh, 132, 0, 0, 12] 0, ds, 0, ss, 0, fnc, 128, 0, rc, rs % 256, rs / 256, crc16 [ds, 0, ss, 0, fnc, 128, 0, rc, rs % 256, rs / 256] 0 / 256, crc16 [ds, 0, ss, 0, fnc, 128, 0, rc, rs % 256, rs / 256] 0 % 256] 0 0 = 105 from rfl]
    rw [if_neg (by norm_num : ¬ ((105:Nat) ≠ 105))]
    rw [show List.take 7 [105, dh, sh, 132, 0, 0, 12, crc8_dvb_s2 [105, dh, sh, 132, 0, 0, 12] 0, ds, 0, ss, 0, fnc, 128, 0, rc, rs % 256, rs / 256, crc16 [ds, 0, ss, 0, fnc, 128, 0, rc, rs % 256, rs / 256] 0 / 256, crc16 [ds, 0, ss, 0, fnc, 128, 0, rc, rs % 256, rs / 256] 0 % 256] = [105, dh, sh, 132, 0, 0, 12] from rfl]
    rw [show List.getD [105, dh, sh, 132, 0, 0, 12, crc8_dvb_s2 [105, dh, sh, 132, 0, 0, 12] 0, ds, 0, ss, 0, fnc, 128, 0, rc, rs % 256, rs / 256, crc16 [ds, 0, ss, 0, fnc, 128, 0, rc, rs % 256, rs / 256] 0 / 256, crc16 [ds, 0, ss, 0, fnc, 128, 0, rc, rs % 256, rs / 256] 0 % 256] 7 0 = crc8_dvb_s2 [105, dh, sh, 132, 0, 0, 12] 0 from rfl]
    rw [if_neg (by simp : ¬ (crc8_dvb_s2 [105, dh, sh, 132, 0, 0, 12] 0 ≠ crc8_dvb_s2 [105, dh, sh, 132, 0, 0, 12] 0))]
    rw [show List.getD [105, dh, sh, 132, 0, 0, 12, crc8_dvb_s2 [105, dh, sh, 132, 0, 0, 12] 0, ds, 0, ss, 0, fnc, 128, 0, rc, rs % 256, rs / 256, crc16 [ds, 0, ss, 0, fnc, 128, 0, rc, rs % 256, rs / 256] 0 / 256, crc16 [ds, 0, ss, 0, fnc, 128, 0, rc, rs % 256, rs / 256] 0 % 256] 6 0 = 12 from rfl]
    rw [if_neg (by norm_num : ¬ ((20:Nat) < 8 + 12))]
    rw [show List.drop 8 [105, dh, sh, 132, 0, 0, 12, crc8_dvb_s2 [105, dh, sh, 132, 0, 0, 12] 0, ds, 0, ss, 0, fnc, 128, 0, rc, rs % 256, rs / 256, crc16 [ds, 0, ss, 0, fnc, 128, 0, rc, rs % 256, rs / 256] 0 / 256, crc16 [ds, 0, ss, 0, fnc, 128, 0, rc, rs % 256, rs / 256] 0 % 256] = [ds, 0, ss, 0, fnc, 128, 0, rc, rs % 256, rs / 256, crc16 [ds, 0, ss, 0, fnc, 128, 0, rc, rs % 256, rs / 256] 0 / 256, crc16 [ds, 0, ss, 0, fnc, 128, 0, rc, rs % 256, rs / 256] 0 % 256] from rfl]
    rw [show List.take 12 [ds, 0, ss, 0, fnc, 128, 0, rc, rs % 256, rs / 256, crc16 [ds, 0, ss, 0, fnc, 128, 0, rc, rs % 256, rs / 256] 0 / 256, crc16 [ds, 0, ss, 0, fnc, 128, 0, rc, rs % 256, rs / 256] 0 % 256] = [ds, 0, ss, 0, fnc, 128, 0, rc, rs % 256, rs / 256, crc16 [ds, 0, ss, 0, fnc, 128, 0, rc, rs % 256, rs / 256] 0 / 256, crc16 [ds, 0, ss, 0, fnc, 128, 0, rc, rs % 256, rs / 256] 0 % 256] from rfl]
    rw [show List.length [ds, 0, ss, 0, fnc, 128, 0, rc, rs % 256, rs / 256, crc16 [ds, 0, ss, 0, fnc, 128, 0, rc, rs % 256, rs / 256] 0 / 256, crc16 [ds, 0, ss, 0, fnc, 128, 0, rc, rs % 256, rs / 256] 0 % 256] = 12 from rfl]
    rw [if_neg (by norm_num : ¬ ((12:Nat) < 7))]
    rw [show (12:Nat) - 2 = 10 from rfl]
    rw [show (12:Nat) - 1 = 11 from rfl]
    rw [show List.take 10 [ds, 0, ss, 0, fnc, 128, 0, rc, rs % 256, rs / 256, crc16 [ds, 0, ss, 0, fnc, 128, 0, rc, rs % 256, rs / 256] 0 / 256, crc16 [ds, 0, ss, 0, fnc, 128, 0, rc, rs % 256, rs / 256] 0 % 256] = [ds, 0, ss, 0, fnc, 128, 0, rc, rs % 256, rs / 256] from rfl]
    rw [show List.getD [ds, 0, ss, 0, fnc, 128, 0, rc, rs % 256, rs / 256, crc16 [ds, 0, ss, 0, fnc, 128, 0, rc, rs % 256, rs / 256] 0 / 256, crc16 [ds, 0, ss, 0, fnc, 128, 0, rc, rs % 256, rs / 256] 0 % 256] 10 0 = crc16 [ds, 0, ss, 0, fnc, 128, 0, rc, rs % 256, rs / 256] 0 / 256 from rfl]
    rw [show List.getD [ds, 0, ss, 0, fnc, 128, 0, rc, rs % 256, rs / 256, crc16 [ds, 0, ss, 0, fnc, 128, 0, rc, rs % 256, rs / 256] 0 / 256, crc16 [ds, 0, ss, 0, fnc, 128, 0, rc, rs % 256, rs / 256] 0 % 256] 11 0 = crc16 [ds, 0, ss, 0, fnc, 128, 0, rc, rs % 256, rs / 256] 0 % 256 from rfl]
    rw [show crc16 [ds, 0, ss, 0, fnc, 128, 0, rc, rs % 256, rs / 256] 0 / 256 * 256 + crc16 [ds, 0, ss, 0, fnc, 128, 0, rc, rs % 256, rs / 256] 0 % 256 = crc16 [ds, 0, ss, 0, fnc, 128, 0, rc, rs % 256, rs / 256] 0 from by omega]
    rw [if_neg (by simp : ¬ (crc16 [ds, 0, ss, 0, fnc, 128, 0, rc, rs % 256, rs / 256] 0 ≠ crc16 [ds, 0, ss, 0, fnc, 128, 0, rc, rs % 256, rs / 256] 0))]
    rw [show List.getD [ds, 0, ss, 0, fnc, 128, 0, rc, rs % 256, rs / 256] 0 0 = ds from rfl]
    rw [show List.getD [ds, 0, ss, 0, fnc, 128, 0, rc, rs % 256, rs / 256] 2 0 = ss from rfl]
    rw [show List.getD [ds, 0, ss, 0, fnc, 128, 0, rc, rs % 256, rs / 256] 4 0 = fnc from rfl]
    rw [show List.getD [ds, 0, ss, 0, fnc, 128, 0, rc, rs % 256, rs / 256] 5 0 = 128 from rfl]
    rw [show List.getD [ds, 0, ss, 0, fnc, 128, 0, rc, rs % 256, rs / 256] 7 0 = rc from rfl]
    rw [show List.getD [ds, 0, ss, 0, fnc, 128, 0, rc, rs % 256, rs / 256] 8 0 = rs % 256 from rfl]
    rw [show List.getD [ds, 0, ss, 0, fnc, 128, 0, rc, rs % 256, rs / 256] 9 0 = rs / 256 from rfl]
    rw [show List.length [ds, 0, ss, 0, fnc, 128, 0, rc, rs % 256, rs / 256] = 10 from rfl]
    rw [if_pos (by norm_num : (10:Nat) ≤ 10)]
    rw [show List.drop 10 [ds, 0, ss, 0, fnc, 128, 0, rc, rs % 256, rs / 256] = ([] : List Nat) from rfl]
    rw [show (8:Nat) + 12 = 20 from by norm_num]
    rw [show List.getD [105, dh, sh, 132, 0, 0, 12, crc8_dvb_s2 [105, dh, sh, 132, 0, 0, 12] 0, ds, 0, ss, 0, fnc, 128, 0, rc, rs % 256, rs / 256, crc16 [ds, 0, ss, 0, fnc, 128, 0, rc, rs % 256, rs / 256] 0 / 256, crc16 [ds, 0, ss, 0, fnc, 128, 0, rc, rs % 256, rs / 256] 0 % 256] 1 0 = dh from rfl]
    rw [show List.getD [105, dh, sh, 132, 0, 0, 12, crc8_dvb_s2 [105, dh, sh, 132, 0, 0, 12] 0, ds, 0, ss, 0, fnc, 128, 0, rc, rs % 256, rs / 256, crc16 [ds, 0, ss, 0, fnc, 128, 0, rc, rs % 256, rs / 256] 0 / 256, crc16 [ds, 0, ss, 0, fnc, 128, 0, rc, rs % 256, rs / 256] 0 % 256] 2 0 = sh from rfl]
    by_cases hf : fnc = 80 ∨ fnc = 112
    · rw [if_pos hf, if_pos hf]
    · rw [if_neg hf, if_neg hf]
  · show some (rs % 256 + 256 * (rs / 256)) = some rs
    exact congrArg some (by omega)

set_option maxRecDepth 10000 in
/-- C4 witness: the round-trip at the concrete request dst_hard=2, src_hard=1,
dst_soft=2, src_soft=1, fnc=0x40, start=100, count=50. -/
theorem c4_read_request_roundtrip_witness :
    ∃ p, parse_packet (build_read_request 2 1 2 1 64 100 50) = some p ∧
      p.dst_hard = 2 ∧ p.src_hard = 1 ∧ p.dst_soft = 2 ∧ p.src_soft = 1 ∧
      p.fnc = 64 ∧ p.reg_start = some 100 ∧ p.reg_count = some 50 :=
  c4_read_request_roundtrip 2 1 2 1 64 100 50 (by decide) (by decide) (by decide)
    (by decide) (by decide) (by decide) (by decide)
